import Mathlib

/-!
Verification development for the REST argument-binding layer in
`protocol/rest/server/rest_server.go`.

The Go source is shallowly embedded: Go `reflect.Type` values become the
inductive `GoType`, Go `interface{}` runtime values become `GoValue`,
the `RestServerRequest` capability becomes the function record
`RestRequest`, the `RestMethodConfig` maps (`map[int]string`) become
association lists whose list order models the (per-`range`) iteration
order of the Go map, and calls to the `logger` collaborator are threaded
explicitly as a `List LogEvent`.  Machine integers are modelled as `Int`
with the explicit range checks of `strconv.ParseInt`.
-/

namespace DubboRest

/-- Semantic kinds of Go reflect types (`reflect.Kind`), restricted to the
kinds the binder inspects plus representative others. -/
inductive GoKind
  | kString | kBool | kInt | kInt32 | kInt64 | kSlice | kPtr | kStruct | kInterface
deriving DecidableEq, Repr

/-- Go types as the binder sees them through `reflect`.  `tStruct` carries
the struct's name (as a character list); the model places all structs in
package `main`, so its `reflect.Type.String()` is `"main." ++ name`. -/
inductive GoType
  | tString
  | tBool
  | tInt
  | tInt32
  | tInt64
  | tInterface
  | tPtr (t : GoType)
  | tSliceOf (t : GoType)
  | tStruct (name : List Char)
deriving DecidableEq, Repr

/-- The `reflect.Kind` of a `GoType`. -/
def GoType.kind : GoType → GoKind
  | .tString => .kString
  | .tBool => .kBool
  | .tInt => .kInt
  | .tInt32 => .kInt32
  | .tInt64 => .kInt64
  | .tInterface => .kInterface
  | .tPtr _ => .kPtr
  | .tSliceOf _ => .kSlice
  | .tStruct _ => .kStruct

/-- `reflect.Type.Elem()` for pointer types (identity elsewhere; the source
only calls it on pointers). -/
def GoType.elem : GoType → GoType
  | .tPtr t => t
  | t => t

/-- The characters of `"interface {}"`, i.e. `reflect.Type.String()` of the
empty interface type. -/
def interfaceStr : List Char :=
  ['i', 'n', 't', 'e', 'r', 'f', 'a', 'c', 'e', ' ', '\x7b', '\x7d']

/-- The characters of `"[]interface {}"`. -/
def sliceInterfaceStr : List Char :=
  ['[', ']', 'i', 'n', 't', 'e', 'r', 'f', 'a', 'c', 'e', ' ', '\x7b', '\x7d']

/-- `reflect.Type.String()` as a character list. -/
def GoType.typeStr : GoType → List Char
  | .tString => ['s', 't', 'r', 'i', 'n', 'g']
  | .tBool => ['b', 'o', 'o', 'l']
  | .tInt => ['i', 'n', 't']
  | .tInt32 => ['i', 'n', 't', '3', '2']
  | .tInt64 => ['i', 'n', 't', '6', '4']
  | .tInterface => interfaceStr
  | .tPtr t => '*' :: t.typeStr
  | .tSliceOf t => '[' :: ']' :: t.typeStr
  | .tStruct n => ['m', 'a', 'i', 'n', '.'] ++ n

/-- Go runtime values as stored in the `[]interface\x7b\x7d` argument list.
`vZero t` is `reflect.Zero(t).Interface()` for non-scalar types (nil
pointer, nil slice, zero struct, nil interface); `vNewPtr t` is
`reflect.New(t).Interface()`, a non-nil pointer to a freshly allocated
zero value of `t` (observably distinct from the nil pointer `vZero (tPtr t)`);
`vEntity` abstracts a body payload decoded by `ReadEntity`. -/
inductive GoValue
  | vString (s : String)
  | vInt (n : Int)
  | vInt32 (n : Int)
  | vInt64 (n : Int)
  | vStringSlice (ss : List String)
  | vZero (t : GoType)
  | vNewPtr (t : GoType)
  | vEntity (tag : String)
deriving DecidableEq, Repr

/-- `reflect.Zero(t).Interface()`: the zero value an argument slot is
pre-filled with. -/
def zeroValue : GoType → GoValue
  | .tString => .vString ""
  | .tInt => .vInt 0
  | .tInt32 => .vInt32 0
  | .tInt64 => .vInt64 0
  | t => .vZero t

/-- Base-10 digit run to a number; `none` when empty or when a non-digit
occurs (mirrors `strconv` rejecting the input). -/
def parseDigits (cs : List Char) : Option Nat :=
  match cs with
  | [] => none
  | _ =>
    cs.foldl
      (fun acc c =>
        acc.bind fun n => if c.isDigit then some (n * 10 + (c.toNat - 48)) else none)
      (some 0)

/-- `strconv.ParseInt(s, 10, bitSize)`, returning `none` exactly when Go
returns a non-nil error (syntax error or out of the signed range of the
given width).  Only the success/failure distinction and the parsed value
are used by the binder. -/
def goParseInt (s : String) (bitSize : Nat) : Option Int :=
  let cs := s.toList
  let signed : Bool × List Char :=
    match cs with
    | '-' :: rest => (true, rest)
    | '+' :: rest => (false, rest)
    | _ => (false, cs)
  match parseDigits signed.2 with
  | none => none
  | some n =>
    let v : Int := if signed.1 then -(n : Int) else (n : Int)
    if -(2 ^ (bitSize - 1) : Int) ≤ v ∧ v ≤ 2 ^ (bitSize - 1) - 1 then some v else none

/-- `strconv.Atoi` on a 64-bit platform: `ParseInt(s, 10, 0)` with the
platform int width of 64 bits. -/
def goAtoi (s : String) : Option Int :=
  goParseInt s 64

/-- The shape of the value handed to `RestServerRequest.ReadEntity`:
a `[]map[string]interface\x7b\x7d` slice, a generic
`map[string]interface\x7b\x7d`, or `reflect.New(t)` for some concrete
type `t`. -/
inductive BodyTarget
  | mapSlice
  | genericMap
  | newPtr (t : GoType)
deriving DecidableEq, Repr

/-- The `RestServerRequest` capability: pure accessors for path, query and
header parameters, and `ReadEntity`, which either fails with an error
message or yields the decoded value for the given target shape. -/
structure RestRequest where
  pathParameter : String → String
  queryParameter : String → String
  queryParameters : String → List String
  headerParameter : String → String
  readEntity : BodyTarget → Except String GoValue

/-- One diagnostic emitted through the `logger` collaborator, one
constructor per distinct log site of the binder. -/
inductive LogEvent
  | pathIndexOutOfRange (k : Int)
  | pathBadKind (k : Int)
  | pathParseError (msg : String)
  | queryIndexOutOfRange (k : Int)
  | queryBadKind (k : Int)
  | queryParseError (msg : String)
  | bodyReadError (msg : String)
  | headerIndexOutOfRange (k : Int)
  | headerNotString (k : Int)
  | genericBodyReadWarn (msg : String)
deriving DecidableEq, Repr

/-- `config.RestMethodConfig`, restricted to the fields the binder reads.
The three `map[int]string` maps are association lists; the list order
models the iteration order Go chooses when the binder ranges over the map
(fresh and unspecified on every `range`). -/
structure RestMethodConfig where
  methodName : String
  pathParamsMap : List (Int × String)
  queryParamsMap : List (Int × String)
  headersMap : List (Int × String)
  body : Int

/-- The `if t.Kind() == reflect.Ptr \x7b t = t.Elem() \x7d` idiom: one level
of pointer unwrapping on a type. -/
def unwrapPtr (t : GoType) : GoType :=
  if t.kind = GoKind.kPtr then t.elem else t

/-- Loop body of `assembleArgsFromHeaders`: state is (args, logs).  Unlike
the path/query passes, this pass re-reads `t.Kind()` AFTER the pointer
unwrap, so the string check really is on the unwrapped type. -/
def headerParamStep (req : RestRequest) (argsLength : Nat) (argsTypes : List GoType)
    (st : List GoValue × List LogEvent) (kv : Int × String) :
    List GoValue × List LogEvent :=
  let param := req.headerParameter kv.2
  if kv.1 < 0 ∨ (argsLength : Int) ≤ kv.1 then
    (st.1, st.2 ++ [LogEvent.headerIndexOutOfRange kv.1])
  else
    let t := argsTypes.getD kv.1.toNat GoType.tInterface
    if (unwrapPtr t).kind = GoKind.kString then
      (st.1.set kv.1.toNat (GoValue.vString param), st.2)
    else
      (st.1, st.2 ++ [LogEvent.headerNotString kv.1])

/-- `assembleArgsFromHeaders`: ranges over `HeadersMap`. -/
def assembleArgsFromHeaders (methodConfig : RestMethodConfig) (req : RestRequest)
    (argsLength : Nat) (argsTypes : List GoType)
    (args : List GoValue) (logs : List LogEvent) : List GoValue × List LogEvent :=
  methodConfig.headersMap.foldl (headerParamStep req argsLength argsTypes) (args, logs)

/-- Target shape selection inside `assembleArgsFromBody`, applied to the
(possibly pointer-unwrapped) type `t`: compare `t.String()` against
`"[]interface \x7b\x7d"` and `"interface \x7b\x7d"`, otherwise
`reflect.New(t)`. -/
def bodyTargetFor (t : GoType) : BodyTarget :=
  if t.typeStr = sliceInterfaceStr then BodyTarget.mapSlice
  else if t.typeStr = interfaceStr then BodyTarget.genericMap
  else BodyTarget.newPtr t

/-- `assembleArgsFromBody`: guarded by `0 <= Body < len(argsTypes)`; on a
decode error the slot is not written and the error is logged. -/
def assembleArgsFromBody (methodConfig : RestMethodConfig) (argsTypes : List GoType)
    (req : RestRequest) (args : List GoValue) (logs : List LogEvent) :
    List GoValue × List LogEvent :=
  if 0 ≤ methodConfig.body ∧ methodConfig.body < (argsTypes.length : Int) then
    let t := argsTypes.getD methodConfig.body.toNat GoType.tInterface
    match req.readEntity (bodyTargetFor (unwrapPtr t)) with
    | Except.error e => (args, logs ++ [LogEvent.bodyReadError e])
    | Except.ok ni => (args.set methodConfig.body.toNat ni, logs)
  else (args, logs)

/-- Loop body of `assembleArgsFromQueryParams`.  The state is
(args, logs, err): `err` models the function-scoped `err` variable that
the source declares once outside the loop, so it persists from one
iteration to the next; only the `Int`/`Int32`/`Int64` branches reassign
it, while the `Slice` and `String` branches leave it untouched.  Note that
`kind` is taken from the declared type BEFORE the pointer unwrap and is
never recomputed, exactly as in the source. -/
def queryParamStep (req : RestRequest) (argsLength : Nat) (argsTypes : List GoType)
    (st : List GoValue × List LogEvent × Option String) (kv : Int × String) :
    List GoValue × List LogEvent × Option String :=
  let args := st.1
  let logs := st.2.1
  let err := st.2.2
  let k := kv.1
  let v := kv.2
  if k < 0 ∨ (argsLength : Int) ≤ k then
    (args, logs ++ [LogEvent.queryIndexOutOfRange k], err)
  else
    let t := argsTypes.getD k.toNat GoType.tInterface
    let kind := t.kind
    if kind = GoKind.kSlice then
      match err with
      | some e => (args, logs ++ [LogEvent.queryParseError e], some e)
      | none => (args.set k.toNat (GoValue.vStringSlice (req.queryParameters v)), logs, none)
    else if kind = GoKind.kString then
      match err with
      | some e => (args, logs ++ [LogEvent.queryParseError e], some e)
      | none => (args.set k.toNat (GoValue.vString (req.queryParameter v)), logs, none)
    else if kind = GoKind.kInt then
      match goAtoi (req.queryParameter v) with
      | none =>
        (args, logs ++ [LogEvent.queryParseError (req.queryParameter v)],
          some (req.queryParameter v))
      | some n => (args.set k.toNat (GoValue.vInt n), logs, none)
    else if kind = GoKind.kInt32 then
      match goParseInt (req.queryParameter v) 32 with
      | none =>
        (args, logs ++ [LogEvent.queryParseError (req.queryParameter v)],
          some (req.queryParameter v))
      | some n => (args.set k.toNat (GoValue.vInt32 n), logs, none)
    else if kind = GoKind.kInt64 then
      match goParseInt (req.queryParameter v) 64 with
      | none =>
        (args, logs ++ [LogEvent.queryParseError (req.queryParameter v)],
          some (req.queryParameter v))
      | some n => (args.set k.toNat (GoValue.vInt64 n), logs, none)
    else
      (args, logs ++ [LogEvent.queryBadKind k], err)

/-- `assembleArgsFromQueryParams`: ranges over `QueryParamsMap` with the
shared `err` starting out nil. -/
def assembleArgsFromQueryParams (methodConfig : RestMethodConfig) (argsLength : Nat)
    (argsTypes : List GoType) (req : RestRequest)
    (args : List GoValue) (logs : List LogEvent) : List GoValue × List LogEvent :=
  let st := methodConfig.queryParamsMap.foldl
    (queryParamStep req argsLength argsTypes) (args, logs, none)
  (st.1, st.2.1)

/-- Loop body of `assembleArgsFromPathParams`; same shape as the query
step (shared `err`, pre-unwrap `kind`) but without the `Slice` branch and
reading `PathParameter`. -/
def pathParamStep (req : RestRequest) (argsLength : Nat) (argsTypes : List GoType)
    (st : List GoValue × List LogEvent × Option String) (kv : Int × String) :
    List GoValue × List LogEvent × Option String :=
  let args := st.1
  let logs := st.2.1
  let err := st.2.2
  let k := kv.1
  let v := kv.2
  if k < 0 ∨ (argsLength : Int) ≤ k then
    (args, logs ++ [LogEvent.pathIndexOutOfRange k], err)
  else
    let t := argsTypes.getD k.toNat GoType.tInterface
    let kind := t.kind
    if kind = GoKind.kInt then
      match goAtoi (req.pathParameter v) with
      | none =>
        (args, logs ++ [LogEvent.pathParseError (req.pathParameter v)],
          some (req.pathParameter v))
      | some n => (args.set k.toNat (GoValue.vInt n), logs, none)
    else if kind = GoKind.kInt32 then
      match goParseInt (req.pathParameter v) 32 with
      | none =>
        (args, logs ++ [LogEvent.pathParseError (req.pathParameter v)],
          some (req.pathParameter v))
      | some n => (args.set k.toNat (GoValue.vInt32 n), logs, none)
    else if kind = GoKind.kInt64 then
      match goParseInt (req.pathParameter v) 64 with
      | none =>
        (args, logs ++ [LogEvent.pathParseError (req.pathParameter v)],
          some (req.pathParameter v))
      | some n => (args.set k.toNat (GoValue.vInt64 n), logs, none)
    else if kind = GoKind.kString then
      match err with
      | some e => (args, logs ++ [LogEvent.pathParseError e], some e)
      | none => (args.set k.toNat (GoValue.vString (req.pathParameter v)), logs, none)
    else
      (args, logs ++ [LogEvent.pathBadKind k], err)

/-- `assembleArgsFromPathParams`: ranges over `PathParamsMap` with the
shared `err` starting out nil. -/
def assembleArgsFromPathParams (methodConfig : RestMethodConfig) (argsLength : Nat)
    (argsTypes : List GoType) (req : RestRequest)
    (args : List GoValue) (logs : List LogEvent) : List GoValue × List LogEvent :=
  let st := methodConfig.pathParamsMap.foldl
    (pathParamStep req argsLength argsTypes) (args, logs, none)
  (st.1, st.2.1)

/-- `getArgsFromRequest`: the typed-convention binder.  A zero-filled list
of the declared length, then the four passes in source order: path,
query, body, header. -/
def getArgsFromRequest (req : RestRequest) (argsTypes : List GoType)
    (methodConfig : RestMethodConfig) : List GoValue × List LogEvent :=
  let argsLength := argsTypes.length
  let args0 := argsTypes.map zeroValue
  let s1 := assembleArgsFromPathParams methodConfig argsLength argsTypes req args0 []
  let s2 := assembleArgsFromQueryParams methodConfig argsLength argsTypes req s1.1 s1.2
  let s3 := assembleArgsFromBody methodConfig argsTypes req s2.1 s2.2
  assembleArgsFromHeaders methodConfig req argsLength argsTypes s3.1 s3.2

/-- Insertion into the generic convention's `map[int]interface\x7b\x7d`:
replace the binding when the key is present, otherwise add it. -/
def mapInsert (m : List (Int × GoValue)) (k : Int) (v : GoValue) : List (Int × GoValue) :=
  if m.any (fun p => p.1 = k) then
    m.map (fun p => if p.1 = k then (k, v) else p)
  else m ++ [(k, v)]

/-- One loop iteration of the generic convention's accumulation loops:
raise `maxKey` when the configured index exceeds it and insert the raw
value into `argsMap`.  `f` is the raw-value extraction of the particular
loop. -/
def genericFoldStep (f : Int × String → GoValue) (st : Int × List (Int × GoValue))
    (kv : Int × String) : Int × List (Int × GoValue) :=
  (if st.1 < kv.1 then kv.1 else st.1, mapInsert st.2 kv.1 (f kv))

/-- Raw value of a path parameter in the generic convention. -/
def pathRawValue (req : RestRequest) (kv : Int × String) : GoValue :=
  GoValue.vString (req.pathParameter kv.2)

/-- Raw value of a query parameter in the generic convention: a single
value collapses to the scalar, any other multiplicity stays the raw
list. -/
def queryRawValue (req : RestRequest) (kv : Int × String) : GoValue :=
  match req.queryParameters kv.2 with
  | [p] => GoValue.vString p
  | ps => GoValue.vStringSlice ps

/-- Raw value of a header parameter in the generic convention. -/
def headerRawValue (req : RestRequest) (kv : Int × String) : GoValue :=
  GoValue.vString (req.headerParameter kv.2)

/-- The accumulation phase of `getArgsInterfaceFromRequest`: builds
(maxKey, argsMap, logs) by ranging over path, query and header maps and
then reading the body when `Body >= 0`.  `maxKey` starts at 0. -/
def buildGenericState (req : RestRequest) (methodConfig : RestMethodConfig) :
    Int × List (Int × GoValue) × List LogEvent :=
  let st1 := methodConfig.pathParamsMap.foldl (genericFoldStep (pathRawValue req)) (0, [])
  let st2 := methodConfig.queryParamsMap.foldl (genericFoldStep (queryRawValue req)) st1
  let st3 := methodConfig.headersMap.foldl (genericFoldStep (headerRawValue req)) st2
  if 0 ≤ methodConfig.body then
    let maxKey := if st3.1 < methodConfig.body then methodConfig.body else st3.1
    match req.readEntity BodyTarget.genericMap with
    | Except.error e => (maxKey, st3.2, [LogEvent.genericBodyReadWarn e])
    | Except.ok m => (maxKey, mapInsert st3.2 methodConfig.body m, [])
  else (st3.1, st3.2, [])

/-- The final fill loop of `getArgsInterfaceFromRequest`: `args[k] = v`
for every map entry with `k >= 0`. -/
def fillArgsStep (acc : List (Option GoValue)) (kv : Int × GoValue) : List (Option GoValue) :=
  if 0 ≤ kv.1 then acc.set kv.1.toNat (some kv.2) else acc

/-- `getArgsInterfaceFromRequest`: the generic-convention binder.  The
result list has length `maxKey+1`; slots never written stay `none`
(the nil `interface\x7b\x7d` value); map entries with negative keys are
skipped when filling. -/
def getArgsInterfaceFromRequest (req : RestRequest) (methodConfig : RestMethodConfig) :
    List (Option GoValue) × List LogEvent :=
  let st := buildGenericState req methodConfig
  let args := st.2.1.foldl fillArgsStep (List.replicate (st.1 + 1).toNat none)
  (args, st.2.2)

/-- The convention choice made inside `GetRouteFunc`:
`(len(argsTypes) == 1 || len(argsTypes) == 2 && replyType == nil) &&
argsTypes[0].String() == "[]interface \x7b\x7d"`.  Go's `&&` binds
tighter than `||` and both short-circuit, so `argsTypes[0]` is only
reached when the length is 1 or 2; `List.getD` is total, agreeing with
the source wherever the source does not panic. -/
def getRouteFuncUsesGeneric (argsTypes : List GoType) (replyTypeIsNil : Bool) : Bool :=
  (argsTypes.length == 1 || (argsTypes.length == 2 && replyTypeIsNil)) &&
    (argsTypes.getD 0 GoType.tInterface).typeStr == sliceInterfaceStr

/-- The generic-convention side condition in the words of the spec: the
first declared argument is the sequence-of-untyped-value type and the
signature has exactly one argument, or exactly two with a nil reply
type. -/
def specGenericConvention (argsTypes : List GoType) (replyTypeIsNil : Bool) : Prop :=
  argsTypes.head? = some (GoType.tSliceOf GoType.tInterface) ∧
    (argsTypes.length = 1 ∨ (argsTypes.length = 2 ∧ replyTypeIsNil = true))

/-- The configured keys of one of the `map[int]string` mappings. -/
def keysOf (l : List (Int × String)) : List Int :=
  l.map Prod.fst

/-- The declared kind of the slot a configured index denotes. -/
def kindAt (argsTypes : List GoType) (k : Int) : GoKind :=
  (argsTypes.getD k.toNat GoType.tInterface).kind

/-- A query entry that binds without any error: its index is in range and
its declared kind either needs no parsing (`Slice`, `String`) or parses
successfully (`Int`, `Int32`, `Int64`). -/
def goodQueryEntry (req : RestRequest) (argsLength : Nat) (argsTypes : List GoType)
    (kv : Int × String) : Prop :=
  0 ≤ kv.1 ∧ kv.1 < (argsLength : Int) ∧
    (kindAt argsTypes kv.1 = GoKind.kSlice ∨ kindAt argsTypes kv.1 = GoKind.kString ∨
      (kindAt argsTypes kv.1 = GoKind.kInt ∧
        (goAtoi (req.queryParameter kv.2)).isSome = true) ∨
      (kindAt argsTypes kv.1 = GoKind.kInt32 ∧
        (goParseInt (req.queryParameter kv.2) 32).isSome = true) ∨
      (kindAt argsTypes kv.1 = GoKind.kInt64 ∧
        (goParseInt (req.queryParameter kv.2) 64).isSome = true))

instance (req : RestRequest) (argsLength : Nat) (argsTypes : List GoType)
    (kv : Int × String) : Decidable (goodQueryEntry req argsLength argsTypes kv) := by
  unfold goodQueryEntry
  infer_instance

/-- The value a successful query entry stores in its slot (used to
characterise the query pass when every entry is good). -/
def queryVal (req : RestRequest) (argsTypes : List GoType) (kv : Int × String) : GoValue :=
  if kindAt argsTypes kv.1 = GoKind.kSlice then
    GoValue.vStringSlice (req.queryParameters kv.2)
  else if kindAt argsTypes kv.1 = GoKind.kString then
    GoValue.vString (req.queryParameter kv.2)
  else if kindAt argsTypes kv.1 = GoKind.kInt then
    GoValue.vInt ((goAtoi (req.queryParameter kv.2)).getD 0)
  else if kindAt argsTypes kv.1 = GoKind.kInt32 then
    GoValue.vInt32 ((goParseInt (req.queryParameter kv.2) 32).getD 0)
  else if kindAt argsTypes kv.1 = GoKind.kInt64 then
    GoValue.vInt64 ((goParseInt (req.queryParameter kv.2) 64).getD 0)
  else GoValue.vZero GoType.tInterface

/-- The pure write a good query entry performs on the argument list. -/
def queryWrite (req : RestRequest) (argsTypes : List GoType) (args : List GoValue)
    (kv : Int × String) : List GoValue :=
  args.set kv.1.toNat (queryVal req argsTypes kv)

/-- Drop the entries with negative configured index from a mapping. -/
def dropNegativeKeys (l : List (Int × String)) : List (Int × String) :=
  l.filter (fun kv => 0 ≤ kv.1)

/-- The same `RestMethodConfig` with every negative-index entry removed
from path, query and header mappings (the body index is untouched: both
a negative body index and its absence take the same `Body >= 0` guard). -/
def dropNegativeCfg (cfg : RestMethodConfig) : RestMethodConfig :=
  { cfg with
    pathParamsMap := dropNegativeKeys cfg.pathParamsMap
    queryParamsMap := dropNegativeKeys cfg.queryParamsMap
    headersMap := dropNegativeKeys cfg.headersMap }

/-- Keep the entries of the generic convention's `argsMap` whose key is
nonnegative. -/
def keepNonnegVals (m : List (Int × GoValue)) : List (Int × GoValue) :=
  m.filter (fun kv => 0 ≤ kv.1)

/-- Adapter fixture: every accessor answers `"5"`; the body decoder
always fails. -/
def reqFive : RestRequest :=
  { pathParameter := fun _ => "5"
    queryParameter := fun _ => "5"
    queryParameters := fun _ => ["5"]
    headerParameter := fun _ => "h"
    readEntity := fun _ => Except.error "e" }

/-- Adapter fixture for the stale-error scenario: query `"a"` holds the
unparsable `"abc"`, every other query name holds `"x"`. -/
def reqStale : RestRequest :=
  { pathParameter := fun _ => "9"
    queryParameter := fun n => if n = "a" then "abc" else "x"
    queryParameters := fun n => [n, n]
    headerParameter := fun _ => "hv"
    readEntity := fun _ => Except.error "bad payload" }

/-- Adapter fixture where query `"a"` holds the maximal int32 literal. -/
def reqMax32 : RestRequest :=
  { pathParameter := fun _ => "9"
    queryParameter := fun n => if n = "a" then "2147483647" else "x"
    queryParameters := fun n => [n, n]
    headerParameter := fun _ => "hv"
    readEntity := fun _ => Except.error "bad payload" }

/-- Adapter fixture whose body decoder succeeds with an opaque decoded
entity. -/
def reqBodyOk : RestRequest :=
  { pathParameter := fun _ => "9"
    queryParameter := fun _ => "qv"
    queryParameters := fun n => [n]
    headerParameter := fun _ => "hv"
    readEntity := fun _ => Except.ok (GoValue.vEntity "decoded") }

/-- Configuration fixture: a single query entry at slot 0. -/
def cfgQuery0 : RestMethodConfig :=
  { methodName := "m", pathParamsMap := [], queryParamsMap := [(0, "q")],
    headersMap := [], body := -1 }

/-- Configuration fixture: a single path entry at slot 0. -/
def cfgPath0 : RestMethodConfig :=
  { methodName := "m", pathParamsMap := [(0, "p")], queryParamsMap := [],
    headersMap := [], body := -1 }

/-- Configuration fixture: query entries at slots 0 and 1, slot 0 first
(one of the two iteration orders Go may choose for the two-entry map). -/
def cfgStaleA : RestMethodConfig :=
  { methodName := "m", pathParamsMap := [], queryParamsMap := [(0, "a"), (1, "b")],
    headersMap := [], body := -1 }

/-- The same two-entry query map as `cfgStaleA` in the other iteration
order. -/
def cfgStaleB : RestMethodConfig :=
  { methodName := "m", pathParamsMap := [], queryParamsMap := [(1, "b"), (0, "a")],
    headersMap := [], body := -1 }

/-- Configuration fixture: only an out-of-range body index. -/
def cfgBody5 : RestMethodConfig :=
  { methodName := "m", pathParamsMap := [], queryParamsMap := [], headersMap := [],
    body := 5 }

/-- Configuration fixture: body at slot 0, a header at slot 1. -/
def cfgBodyHeader : RestMethodConfig :=
  { methodName := "m", pathParamsMap := [], queryParamsMap := [],
    headersMap := [(1, "x-h")], body := 0 }

/-- Configuration fixture: everything empty, no body. -/
def cfgEmpty : RestMethodConfig :=
  { methodName := "m", pathParamsMap := [], queryParamsMap := [], headersMap := [],
    body := -1 }

/-- A struct type named `User`. -/
def userStruct : GoType :=
  GoType.tStruct ['U', 's', 'e', 'r']

/-- Configuration fixture: a single header entry at slot 0. -/
def cfgHeaderOnly : RestMethodConfig :=
  { methodName := "m", pathParamsMap := [], queryParamsMap := [],
    headersMap := [(0, "h")], body := -1 }

/-- Configuration fixture: only the body, at slot 0. -/
def cfgBody0 : RestMethodConfig :=
  { methodName := "m", pathParamsMap := [], queryParamsMap := [], headersMap := [],
    body := 0 }

/-- Configuration fixture for the generic convention with negative
configured indices sprinkled in. -/
def cfgNegative : RestMethodConfig :=
  { methodName := "m", pathParamsMap := [(-3, "p")],
    queryParamsMap := [(-1, "q"), (2, "r")], headersMap := [(-7, "h")], body := -2 }

/-- Only the empty-interface type prints as `"interface \x7b\x7d"`. -/
theorem typeStr_eq_interfaceStr_iff (t : GoType) :
    t.typeStr = interfaceStr ↔ t = GoType.tInterface := by
  cases t <;> simp [GoType.typeStr, interfaceStr]

/-- Only `[]interface\x7b\x7d` prints as `"[]interface \x7b\x7d"`. -/
theorem typeStr_eq_sliceInterfaceStr_iff (t : GoType) :
    t.typeStr = sliceInterfaceStr ↔ t = GoType.tSliceOf GoType.tInterface := by
  cases t with
  | tSliceOf u =>
    have h := typeStr_eq_interfaceStr_iff u
    simp [GoType.typeStr, sliceInterfaceStr, interfaceStr] at h ⊢
    exact h
  | _ => simp [GoType.typeStr, sliceInterfaceStr, interfaceStr]

/-- C3: the route function uses the generic convention exactly when the
declared signature has a sequence-of-untyped-value first argument and
either exactly one argument, or exactly two arguments with a nil reply
type; otherwise it uses the typed convention. -/
theorem getRouteFunc_generic_iff (argsTypes : List GoType) (replyTypeIsNil : Bool) :
    getRouteFuncUsesGeneric argsTypes replyTypeIsNil = true ↔
      specGenericConvention argsTypes replyTypeIsNil := by
  cases argsTypes with
  | nil =>
    simp [getRouteFuncUsesGeneric, specGenericConvention]
  | cons a l =>
    simp only [getRouteFuncUsesGeneric, specGenericConvention, Bool.and_eq_true,
      Bool.or_eq_true, beq_iff_eq, List.getD_cons_zero, List.head?_cons,
      Option.some.injEq, List.length_cons]
    rw [typeStr_eq_sliceInterfaceStr_iff]
    constructor
    · rintro ⟨hlen, ha⟩
      refine ⟨ha, ?_⟩
      rcases hlen with h1 | ⟨h2, hr⟩
      · exact Or.inl (by omega)
      · exact Or.inr ⟨by omega, hr⟩
    · rintro ⟨ha, hlen⟩
      refine ⟨?_, ha⟩
      rcases hlen with h1 | ⟨h2, hr⟩
      · exact Or.inl (by omega)
      · exact Or.inr ⟨by omega, hr⟩

/-- One query iteration never changes the argument-list length. -/
theorem queryParamStep_fst_length (req : RestRequest) (n : Nat) (types : List GoType)
    (st : List GoValue × List LogEvent × Option String) (kv : Int × String) :
    (queryParamStep req n types st kv).1.length = st.1.length := by
  simp only [queryParamStep]
  repeat' split
  all_goals simp [List.length_set]

/-- One path iteration never changes the argument-list length. -/
theorem pathParamStep_fst_length (req : RestRequest) (n : Nat) (types : List GoType)
    (st : List GoValue × List LogEvent × Option String) (kv : Int × String) :
    (pathParamStep req n types st kv).1.length = st.1.length := by
  simp only [pathParamStep]
  repeat' split
  all_goals simp [List.length_set]

/-- One header iteration never changes the argument-list length. -/
theorem headerParamStep_fst_length (req : RestRequest) (n : Nat) (types : List GoType)
    (st : List GoValue × List LogEvent) (kv : Int × String) :
    (headerParamStep req n types st kv).1.length = st.1.length := by
  simp only [headerParamStep]
  repeat' split
  all_goals simp [List.length_set]

/-- A query iteration for a key other than `j` leaves slot `j` alone. -/
theorem queryParamStep_fst_getElem?_ne (req : RestRequest) (n : Nat) (types : List GoType)
    (st : List GoValue × List LogEvent × Option String) (kv : Int × String) (j : Nat)
    (h : kv.1 ≠ (j : Int)) :
    (queryParamStep req n types st kv).1[j]? = st.1[j]? := by
  simp only [queryParamStep]
  split
  · rfl
  · rename_i hin
    have hne : kv.1.toNat ≠ j := by omega
    repeat' split
    all_goals simp [List.getElem?_set_ne hne]

/-- A path iteration for a key other than `j` leaves slot `j` alone. -/
theorem pathParamStep_fst_getElem?_ne (req : RestRequest) (n : Nat) (types : List GoType)
    (st : List GoValue × List LogEvent × Option String) (kv : Int × String) (j : Nat)
    (h : kv.1 ≠ (j : Int)) :
    (pathParamStep req n types st kv).1[j]? = st.1[j]? := by
  simp only [pathParamStep]
  split
  · rfl
  · rename_i hin
    have hne : kv.1.toNat ≠ j := by omega
    repeat' split
    all_goals simp [List.getElem?_set_ne hne]

/-- A header iteration for a key other than `j` leaves slot `j` alone. -/
theorem headerParamStep_fst_getElem?_ne (req : RestRequest) (n : Nat) (types : List GoType)
    (st : List GoValue × List LogEvent) (kv : Int × String) (j : Nat)
    (h : kv.1 ≠ (j : Int)) :
    (headerParamStep req n types st kv).1[j]? = st.1[j]? := by
  simp only [headerParamStep]
  split
  · rfl
  · rename_i hin
    have hne : kv.1.toNat ≠ j := by omega
    repeat' split
    all_goals simp [List.getElem?_set_ne hne]

/-- The query fold never changes the argument-list length. -/
theorem queryFold_fst_length (req : RestRequest) (n : Nat) (types : List GoType)
    (l : List (Int × String)) (st : List GoValue × List LogEvent × Option String) :
    ((l.foldl (queryParamStep req n types) st).1).length = st.1.length := by
  induction l generalizing st with
  | nil => rfl
  | cons kv l ih => rw [List.foldl_cons, ih, queryParamStep_fst_length]

/-- The path fold never changes the argument-list length. -/
theorem pathFold_fst_length (req : RestRequest) (n : Nat) (types : List GoType)
    (l : List (Int × String)) (st : List GoValue × List LogEvent × Option String) :
    ((l.foldl (pathParamStep req n types) st).1).length = st.1.length := by
  induction l generalizing st with
  | nil => rfl
  | cons kv l ih => rw [List.foldl_cons, ih, pathParamStep_fst_length]

/-- The header fold never changes the argument-list length. -/
theorem headerFold_fst_length (req : RestRequest) (n : Nat) (types : List GoType)
    (l : List (Int × String)) (st : List GoValue × List LogEvent) :
    ((l.foldl (headerParamStep req n types) st).1).length = st.1.length := by
  induction l generalizing st with
  | nil => rfl
  | cons kv l ih => rw [List.foldl_cons, ih, headerParamStep_fst_length]

/-- The query fold leaves slot `j` alone when no entry has key `j`. -/
theorem queryFold_fst_getElem?_ne (req : RestRequest) (n : Nat) (types : List GoType)
    (l : List (Int × String)) (st : List GoValue × List LogEvent × Option String) (j : Nat)
    (h : ∀ kv ∈ l, kv.1 ≠ (j : Int)) :
    (l.foldl (queryParamStep req n types) st).1[j]? = st.1[j]? := by
  induction l generalizing st with
  | nil => rfl
  | cons kv l ih =>
    rw [List.foldl_cons, ih _ (fun x hx => h x (List.mem_cons_of_mem _ hx)),
      queryParamStep_fst_getElem?_ne _ _ _ _ _ _ (h kv (List.mem_cons_self _ _))]

/-- The path fold leaves slot `j` alone when no entry has key `j`. -/
theorem pathFold_fst_getElem?_ne (req : RestRequest) (n : Nat) (types : List GoType)
    (l : List (Int × String)) (st : List GoValue × List LogEvent × Option String) (j : Nat)
    (h : ∀ kv ∈ l, kv.1 ≠ (j : Int)) :
    (l.foldl (pathParamStep req n types) st).1[j]? = st.1[j]? := by
  induction l generalizing st with
  | nil => rfl
  | cons kv l ih =>
    rw [List.foldl_cons, ih _ (fun x hx => h x (List.mem_cons_of_mem _ hx)),
      pathParamStep_fst_getElem?_ne _ _ _ _ _ _ (h kv (List.mem_cons_self _ _))]

/-- The header fold leaves slot `j` alone when no entry has key `j`. -/
theorem headerFold_fst_getElem?_ne (req : RestRequest) (n : Nat) (types : List GoType)
    (l : List (Int × String)) (st : List GoValue × List LogEvent) (j : Nat)
    (h : ∀ kv ∈ l, kv.1 ≠ (j : Int)) :
    (l.foldl (headerParamStep req n types) st).1[j]? = st.1[j]? := by
  induction l generalizing st with
  | nil => rfl
  | cons kv l ih =>
    rw [List.foldl_cons, ih _ (fun x hx => h x (List.mem_cons_of_mem _ hx)),
      headerParamStep_fst_getElem?_ne _ _ _ _ _ _ (h kv (List.mem_cons_self _ _))]

/-- The body pass never changes the argument-list length. -/
theorem assembleArgsFromBody_fst_length (cfg : RestMethodConfig) (types : List GoType)
    (req : RestRequest) (args : List GoValue) (logs : List LogEvent) :
    (assembleArgsFromBody cfg types req args logs).1.length = args.length := by
  simp only [assembleArgsFromBody]
  repeat' split
  all_goals simp [List.length_set]

/-- The body pass leaves slot `j` alone when the body index is not `j`. -/
theorem assembleArgsFromBody_fst_getElem?_ne (cfg : RestMethodConfig) (types : List GoType)
    (req : RestRequest) (args : List GoValue) (logs : List LogEvent) (j : Nat)
    (h : cfg.body ≠ (j : Int)) :
    (assembleArgsFromBody cfg types req args logs).1[j]? = args[j]? := by
  simp only [assembleArgsFromBody]
  split
  · rename_i hin
    have hne : cfg.body.toNat ≠ j := by omega
    split
    all_goals simp [List.getElem?_set_ne hne]
  · rfl

/-- The typed-convention pass wrappers preserve the length. -/
theorem assembleArgsFromQueryParams_fst_length (cfg : RestMethodConfig) (n : Nat)
    (types : List GoType) (req : RestRequest) (args : List GoValue) (logs : List LogEvent) :
    (assembleArgsFromQueryParams cfg n types req args logs).1.length = args.length := by
  simp only [assembleArgsFromQueryParams]
  exact queryFold_fst_length req n types cfg.queryParamsMap (args, logs, none)

/-- The path pass wrapper preserves the length. -/
theorem assembleArgsFromPathParams_fst_length (cfg : RestMethodConfig) (n : Nat)
    (types : List GoType) (req : RestRequest) (args : List GoValue) (logs : List LogEvent) :
    (assembleArgsFromPathParams cfg n types req args logs).1.length = args.length := by
  simp only [assembleArgsFromPathParams]
  exact pathFold_fst_length req n types cfg.pathParamsMap (args, logs, none)

/-- The header pass wrapper preserves the length. -/
theorem assembleArgsFromHeaders_fst_length (cfg : RestMethodConfig) (req : RestRequest)
    (n : Nat) (types : List GoType) (args : List GoValue) (logs : List LogEvent) :
    (assembleArgsFromHeaders cfg req n types args logs).1.length = args.length := by
  simp only [assembleArgsFromHeaders]
  exact headerFold_fst_length req n types cfg.headersMap (args, logs)

/-- The argument list built by the typed convention has exactly the
declared number of slots. -/
theorem getArgsFromRequest_fst_length (req : RestRequest) (types : List GoType)
    (cfg : RestMethodConfig) :
    (getArgsFromRequest req types cfg).1.length = types.length := by
  simp only [getArgsFromRequest]
  rw [assembleArgsFromHeaders_fst_length, assembleArgsFromBody_fst_length,
    assembleArgsFromQueryParams_fst_length, assembleArgsFromPathParams_fst_length,
    List.length_map]

/-- Membership form of `keysOf`. -/
theorem not_mem_keysOf_iff (l : List (Int × String)) (j : Int) :
    j ∉ keysOf l ↔ ∀ kv ∈ l, kv.1 ≠ j := by
  simp only [keysOf, List.mem_map]
  push_neg
  constructor
  · intro h kv hm
    exact h kv hm
  · intro h kv hm
    exact h kv hm

/-- The query pass wrapper leaves slot `j` alone when no entry has key
`j`. -/
theorem assembleArgsFromQueryParams_fst_getElem?_ne (cfg : RestMethodConfig) (n : Nat)
    (types : List GoType) (req : RestRequest) (args : List GoValue) (logs : List LogEvent)
    (j : Nat) (h : ∀ kv ∈ cfg.queryParamsMap, kv.1 ≠ (j : Int)) :
    (assembleArgsFromQueryParams cfg n types req args logs).1[j]? = args[j]? := by
  simp only [assembleArgsFromQueryParams]
  exact queryFold_fst_getElem?_ne _ _ _ _ _ _ h

/-- The path pass wrapper leaves slot `j` alone when no entry has key
`j`. -/
theorem assembleArgsFromPathParams_fst_getElem?_ne (cfg : RestMethodConfig) (n : Nat)
    (types : List GoType) (req : RestRequest) (args : List GoValue) (logs : List LogEvent)
    (j : Nat) (h : ∀ kv ∈ cfg.pathParamsMap, kv.1 ≠ (j : Int)) :
    (assembleArgsFromPathParams cfg n types req args logs).1[j]? = args[j]? := by
  simp only [assembleArgsFromPathParams]
  exact pathFold_fst_getElem?_ne _ _ _ _ _ _ h

/-- The header pass wrapper leaves slot `j` alone when no entry has key
`j`. -/
theorem assembleArgsFromHeaders_fst_getElem?_ne (cfg : RestMethodConfig) (req : RestRequest)
    (n : Nat) (types : List GoType) (args : List GoValue) (logs : List LogEvent)
    (j : Nat) (h : ∀ kv ∈ cfg.headersMap, kv.1 ≠ (j : Int)) :
    (assembleArgsFromHeaders cfg req n types args logs).1[j]? = args[j]? := by
  simp only [assembleArgsFromHeaders]
  exact headerFold_fst_getElem?_ne _ _ _ _ _ _ h

/-- A slot no mapping targets keeps its initial zero value through the
whole typed-convention binder. -/
theorem getArgsFromRequest_untouched (req : RestRequest) (types : List GoType)
    (cfg : RestMethodConfig) (j : Nat)
    (hp : ∀ kv ∈ cfg.pathParamsMap, kv.1 ≠ (j : Int))
    (hq : ∀ kv ∈ cfg.queryParamsMap, kv.1 ≠ (j : Int))
    (hh : ∀ kv ∈ cfg.headersMap, kv.1 ≠ (j : Int))
    (hb : cfg.body ≠ (j : Int)) :
    (getArgsFromRequest req types cfg).1[j]? = (types.map zeroValue)[j]? := by
  simp only [getArgsFromRequest]
  rw [assembleArgsFromHeaders_fst_getElem?_ne _ _ _ _ _ _ _ hh,
    assembleArgsFromBody_fst_getElem?_ne _ _ _ _ _ _ hb,
    assembleArgsFromQueryParams_fst_getElem?_ne _ _ _ _ _ _ _ hq,
    assembleArgsFromPathParams_fst_getElem?_ne _ _ _ _ _ _ _ hp]

/-- Writing step of the header pass, spelled out: with an in-range index
and an unwrapped string kind the slot is overwritten with the raw header
value. -/
theorem headerParamStep_write (req : RestRequest) (n : Nat) (types : List GoType)
    (st : List GoValue × List LogEvent) (k : Int) (v : String)
    (h0 : 0 ≤ k) (hn : k < (n : Int))
    (hstr : (unwrapPtr (types.getD k.toNat GoType.tInterface)).kind = GoKind.kString) :
    headerParamStep req n types st (k, v) =
      (st.1.set k.toNat (GoValue.vString (req.headerParameter v)), st.2) := by
  simp only [headerParamStep]
  rw [if_neg (by omega), if_pos hstr]

/-- Rejecting step of the header pass: an in-range slot whose unwrapped
kind is not string is left alone and the mismatch is logged. -/
theorem headerParamStep_reject (req : RestRequest) (n : Nat) (types : List GoType)
    (st : List GoValue × List LogEvent) (k : Int) (v : String)
    (h0 : 0 ≤ k) (hn : k < (n : Int))
    (hstr : (unwrapPtr (types.getD k.toNat GoType.tInterface)).kind ≠ GoKind.kString) :
    headerParamStep req n types st (k, v) =
      (st.1, st.2 ++ [LogEvent.headerNotString k]) := by
  simp only [headerParamStep]
  rw [if_neg (by omega), if_neg hstr]

/-- After the header fold, a header entry whose key does not recur later
determines its slot: the raw header value is what remains. -/
theorem headerFold_last_write (req : RestRequest) (n : Nat) (types : List GoType)
    (l1 l2 : List (Int × String)) (j : Int) (w : String)
    (st : List GoValue × List LogEvent)
    (hj0 : 0 ≤ j) (hjn : j < (n : Int)) (hlen : st.1.length = n)
    (hstr : (unwrapPtr (types.getD j.toNat GoType.tInterface)).kind = GoKind.kString)
    (h2 : ∀ kv ∈ l2, kv.1 ≠ j) :
    ((l1 ++ (j, w) :: l2).foldl (headerParamStep req n types) st).1[j.toNat]? =
      some (GoValue.vString (req.headerParameter w)) := by
  rw [List.foldl_append, List.foldl_cons]
  have h2' : ∀ kv ∈ l2, kv.1 ≠ (j.toNat : Int) := by
    intro kv hm
    rw [Int.toNat_of_nonneg hj0]
    exact h2 kv hm
  rw [headerFold_fst_getElem?_ne _ _ _ _ _ _ h2',
    headerParamStep_write _ _ _ _ _ _ hj0 hjn hstr]
  have hlen1 : (l1.foldl (headerParamStep req n types) st).1.length = n := by
    rw [headerFold_fst_length, hlen]
  exact List.getElem?_set_self (by rw [hlen1]; omega)

/-- Through the whole typed-convention binder, a header entry whose key
does not recur later in the header map wins the slot, regardless of what
the path, query and body passes put there. -/
theorem getArgsFromRequest_header_write (req : RestRequest) (types : List GoType)
    (cfg : RestMethodConfig) (l1 l2 : List (Int × String)) (j : Int) (w : String)
    (hsplit : cfg.headersMap = l1 ++ (j, w) :: l2)
    (h2 : ∀ kv ∈ l2, kv.1 ≠ j) (hj0 : 0 ≤ j) (hjn : j < (types.length : Int))
    (hstr : (unwrapPtr (types.getD j.toNat GoType.tInterface)).kind = GoKind.kString) :
    (getArgsFromRequest req types cfg).1[j.toNat]? =
      some (GoValue.vString (req.headerParameter w)) := by
  simp only [getArgsFromRequest, assembleArgsFromHeaders]
  rw [hsplit]
  refine headerFold_last_write _ _ _ _ _ _ _ _ hj0 hjn ?_ hstr h2
  rw [assembleArgsFromBody_fst_length, assembleArgsFromQueryParams_fst_length,
    assembleArgsFromPathParams_fst_length, List.length_map]

/-- Through the whole typed-convention binder, a successfully decoded
body lands in the body slot provided no header entry targets that same
slot. -/
theorem getArgsFromRequest_body_write (req : RestRequest) (types : List GoType)
    (cfg : RestMethodConfig) (ni : GoValue)
    (hb0 : 0 ≤ cfg.body) (hbn : cfg.body < (types.length : Int))
    (hok : req.readEntity
        (bodyTargetFor (unwrapPtr (types.getD cfg.body.toNat GoType.tInterface))) =
      Except.ok ni)
    (hh : ∀ kv ∈ cfg.headersMap, kv.1 ≠ cfg.body) :
    (getArgsFromRequest req types cfg).1[cfg.body.toNat]? = some ni := by
  simp only [getArgsFromRequest, assembleArgsFromHeaders]
  have hh' : ∀ kv ∈ cfg.headersMap, kv.1 ≠ (cfg.body.toNat : Int) := by
    intro kv hm
    rw [Int.toNat_of_nonneg hb0]
    exact hh kv hm
  rw [headerFold_fst_getElem?_ne _ _ _ _ _ _ hh']
  simp only [assembleArgsFromBody]
  rw [if_pos ⟨hb0, hbn⟩, hok]
  have hlen : (assembleArgsFromQueryParams cfg types.length types req
      (assembleArgsFromPathParams cfg types.length types req (types.map zeroValue) []).1
      (assembleArgsFromPathParams cfg types.length types req (types.map zeroValue) []).2).1.length =
      types.length := by
    rw [assembleArgsFromQueryParams_fst_length, assembleArgsFromPathParams_fst_length,
      List.length_map]
  exact List.getElem?_set_self (by rw [hlen]; omega)

/-- C4: the typed-convention binder returns one slot per declared
parameter; a slot no mapping targets keeps its declared type's zero
value; and because the four passes run in the fixed order path, query,
body, header, a later pass's write is what survives in the final list: a
header entry wins its slot outright, and a decoded body wins its slot
over path/query provided no header entry targets it. -/
theorem getArgsFromRequest_shape (req : RestRequest) (types : List GoType)
    (cfg : RestMethodConfig) :
    (getArgsFromRequest req types cfg).1.length = types.length ∧
    (∀ j : Nat,
      (∀ kv ∈ cfg.pathParamsMap, kv.1 ≠ (j : Int)) →
      (∀ kv ∈ cfg.queryParamsMap, kv.1 ≠ (j : Int)) →
      (∀ kv ∈ cfg.headersMap, kv.1 ≠ (j : Int)) →
      cfg.body ≠ (j : Int) →
      (getArgsFromRequest req types cfg).1[j]? = (types.map zeroValue)[j]?) ∧
    (∀ (l1 l2 : List (Int × String)) (j : Int) (w : String),
      cfg.headersMap = l1 ++ (j, w) :: l2 →
      (∀ kv ∈ l2, kv.1 ≠ j) → 0 ≤ j → j < (types.length : Int) →
      (unwrapPtr (types.getD j.toNat GoType.tInterface)).kind = GoKind.kString →
      (getArgsFromRequest req types cfg).1[j.toNat]? =
        some (GoValue.vString (req.headerParameter w))) ∧
    (∀ ni : GoValue, 0 ≤ cfg.body → cfg.body < (types.length : Int) →
      req.readEntity
          (bodyTargetFor (unwrapPtr (types.getD cfg.body.toNat GoType.tInterface))) =
        Except.ok ni →
      (∀ kv ∈ cfg.headersMap, kv.1 ≠ cfg.body) →
      (getArgsFromRequest req types cfg).1[cfg.body.toNat]? = some ni) := by
  refine ⟨getArgsFromRequest_fst_length req types cfg, ?_, ?_, ?_⟩
  · intro j hp hq hh hb
    exact getArgsFromRequest_untouched req types cfg j hp hq hh hb
  · intro l1 l2 j w hsplit h2 hj0 hjn hstr
    exact getArgsFromRequest_header_write req types cfg l1 l2 j w hsplit h2 hj0 hjn hstr
  · intro ni hb0 hbn hok hh
    exact getArgsFromRequest_body_write req types cfg ni hb0 hbn hok hh

/-- C4 witness: with a body mapped to slot 0 and a header to slot 1, the
decoded entity lands in slot 0 and the raw header value in slot 1. -/
theorem getArgsFromRequest_shape_witness :
    (getArgsFromRequest reqBodyOk [GoType.tPtr userStruct, GoType.tString] cfgBodyHeader).1[1]? =
      some (GoValue.vString "hv") ∧
    (getArgsFromRequest reqBodyOk [GoType.tPtr userStruct, GoType.tString] cfgBodyHeader).1[0]? =
      some (GoValue.vEntity "decoded") :=
  ⟨(getArgsFromRequest_shape reqBodyOk [GoType.tPtr userStruct, GoType.tString]
        cfgBodyHeader).2.2.1 [] [] 1 "x-h" rfl (by simp) (by decide) (by decide) (by decide),
    (getArgsFromRequest_shape reqBodyOk [GoType.tPtr userStruct, GoType.tString]
        cfgBodyHeader).2.2.2 (GoValue.vEntity "decoded") (by decide) (by decide) rfl
      (by decide)⟩

/-- The header fold leaves a nonnegative slot alone when that slot's
unwrapped kind is not string, no matter which entries mention it. -/
theorem headerFold_nonstring_untouched (req : RestRequest) (n : Nat) (types : List GoType)
    (l : List (Int × String)) (st : List GoValue × List LogEvent) (k : Int)
    (h0 : 0 ≤ k)
    (hns : (unwrapPtr (types.getD k.toNat GoType.tInterface)).kind ≠ GoKind.kString) :
    (l.foldl (headerParamStep req n types) st).1[k.toNat]? = st.1[k.toNat]? := by
  induction l generalizing st with
  | nil => rfl
  | cons kv l ih =>
    rcases kv with ⟨k1, v1⟩
    rw [List.foldl_cons, ih]
    by_cases he : k1 = k
    · subst he
      simp only [headerParamStep]
      repeat' split
      all_goals first
        | rfl
        | (rename_i hstr; exact absurd hstr hns)
    · refine headerParamStep_fst_getElem?_ne _ _ _ _ _ _ ?_
      rw [Int.toNat_of_nonneg h0]
      exact he

/-- C6: the header pass writes a slot only when its declared type,
after one level of pointer unwrapping, has string kind; a header-mapped
slot of any other unwrapped kind is left untouched by the whole pass no
matter what the header holds, with the mismatch logged non-fatally. -/
theorem header_pass_only_string (cfg : RestMethodConfig) (req : RestRequest) (n : Nat)
    (types : List GoType) (args : List GoValue) (logs : List LogEvent) :
    (∀ k v, (k, v) ∈ cfg.headersMap → 0 ≤ k →
      (unwrapPtr (types.getD k.toNat GoType.tInterface)).kind ≠ GoKind.kString →
      (assembleArgsFromHeaders cfg req n types args logs).1[k.toNat]? = args[k.toNat]?) ∧
    (∀ (st : List GoValue × List LogEvent) k v, 0 ≤ k → k < (n : Int) →
      (unwrapPtr (types.getD k.toNat GoType.tInterface)).kind = GoKind.kString →
      headerParamStep req n types st (k, v) =
        (st.1.set k.toNat (GoValue.vString (req.headerParameter v)), st.2)) ∧
    (∀ (st : List GoValue × List LogEvent) k v, 0 ≤ k → k < (n : Int) →
      (unwrapPtr (types.getD k.toNat GoType.tInterface)).kind ≠ GoKind.kString →
      headerParamStep req n types st (k, v) =
        (st.1, st.2 ++ [LogEvent.headerNotString k])) := by
  refine ⟨?_, ?_, ?_⟩
  · intro k v _ h0 hns
    simp only [assembleArgsFromHeaders]
    exact headerFold_nonstring_untouched req n types cfg.headersMap (args, logs) k h0 hns
  · intro st k v h0 hn hstr
    exact headerParamStep_write req n types st k v h0 hn hstr
  · intro st k v h0 hn hns
    exact headerParamStep_reject req n types st k v h0 hn hns

/-- C6 witness: an int32 slot is untouched by a present header, and a
string slot takes the raw header value. -/
theorem header_pass_only_string_witness :
    (assembleArgsFromHeaders cfgHeaderOnly reqFive 1 [GoType.tInt32] [GoValue.vInt32 7]
        []).1[0]? = some (GoValue.vInt32 7) ∧
    headerParamStep reqFive 1 [GoType.tString] ([GoValue.vString ""], []) (0, "h") =
      ([GoValue.vString "h"].set 0 (GoValue.vString (reqFive.headerParameter "h")), []) :=
  ⟨(header_pass_only_string cfgHeaderOnly reqFive 1 [GoType.tInt32] [GoValue.vInt32 7]
        []).1 0 "h" (by decide) (by decide) (by decide),
    (header_pass_only_string cfgHeaderOnly reqFive 1 [GoType.tString] [] []).2.1
      ([GoValue.vString ""], []) 0 "h" (by decide) (by decide) (by decide)⟩

/-- A struct type is decoded through `reflect.New`: its printed type is
neither of the two special strings. -/
theorem bodyTargetFor_struct (name : List Char) :
    bodyTargetFor (GoType.tStruct name) = BodyTarget.newPtr (GoType.tStruct name) := by
  simp only [bodyTargetFor]
  rw [if_neg (fun h => by simpa using (typeStr_eq_sliceInterfaceStr_iff _).mp h),
    if_neg (fun h => by simpa using (typeStr_eq_interfaceStr_iff _).mp h)]

/-- C5 counterexample: on a decode failure the body slot does NOT hold a
fresh zero instance of the struct (what `reflect.New` would have
produced); it keeps its initial zero value, the nil pointer.  The two
are distinct Go values. -/
theorem body_decode_failure_counterexample :
    getArgsFromRequest reqFive [GoType.tPtr userStruct] cfgBody0 =
      ([GoValue.vZero (GoType.tPtr userStruct)], [LogEvent.bodyReadError "e"]) ∧
    GoValue.vZero (GoType.tPtr userStruct) ≠ GoValue.vNewPtr userStruct := by
  exact ⟨rfl, by decide⟩

/-- C5 (amended): for a body-mapped pointer-to-struct slot the decode
target is a fresh instance via `reflect.New`; on success the populated
instance is stored, on failure the slot keeps its zero value (the nil
pointer) and the failure is only logged; the header pass still runs
afterwards and still writes its (string-kind) slots. -/
theorem body_decode_ptr_struct (req : RestRequest) (types : List GoType)
    (cfg : RestMethodConfig) (name : List Char)
    (hb0 : 0 ≤ cfg.body) (hbn : cfg.body < (types.length : Int))
    (hty : types.getD cfg.body.toNat GoType.tInterface = GoType.tPtr (GoType.tStruct name)) :
    (∀ (args : List GoValue) (logs : List LogEvent) (e : String),
      req.readEntity (BodyTarget.newPtr (GoType.tStruct name)) = Except.error e →
      assembleArgsFromBody cfg types req args logs =
        (args, logs ++ [LogEvent.bodyReadError e])) ∧
    (∀ (args : List GoValue) (logs : List LogEvent) (ni : GoValue),
      req.readEntity (BodyTarget.newPtr (GoType.tStruct name)) = Except.ok ni →
      assembleArgsFromBody cfg types req args logs = (args.set cfg.body.toNat ni, logs)) ∧
    (∀ (l1 l2 : List (Int × String)) (j : Int) (w : String),
      cfg.headersMap = l1 ++ (j, w) :: l2 → (∀ kv ∈ l2, kv.1 ≠ j) →
      0 ≤ j → j < (types.length : Int) →
      (unwrapPtr (types.getD j.toNat GoType.tInterface)).kind = GoKind.kString →
      (getArgsFromRequest req types cfg).1[j.toNat]? =
        some (GoValue.vString (req.headerParameter w))) := by
  have htarget : bodyTargetFor (unwrapPtr (types.getD cfg.body.toNat GoType.tInterface)) =
      BodyTarget.newPtr (GoType.tStruct name) := by
    rw [hty]
    exact bodyTargetFor_struct name
  refine ⟨?_, ?_, ?_⟩
  · intro args logs e he
    simp only [assembleArgsFromBody]
    rw [if_pos ⟨hb0, hbn⟩, htarget, he]
  · intro args logs ni hok
    simp only [assembleArgsFromBody]
    rw [if_pos ⟨hb0, hbn⟩, htarget, hok]
  · intro l1 l2 j w hsplit h2 hj0 hjn hstr
    exact getArgsFromRequest_header_write req types cfg l1 l2 j w hsplit h2 hj0 hjn hstr

/-- C5 witness: body at slot 0 of type pointer-to-User, failing decoder;
the body pass leaves the list unchanged and only logs, and with a
working decoder the instance is stored; with a header at slot 1, the
header write still lands after a failed decode. -/
theorem body_decode_ptr_struct_witness :
    assembleArgsFromBody cfgBodyHeader [GoType.tPtr userStruct, GoType.tString] reqStale
        [GoValue.vZero (GoType.tPtr userStruct), GoValue.vString ""] [] =
      ([GoValue.vZero (GoType.tPtr userStruct), GoValue.vString ""],
        [LogEvent.bodyReadError "bad payload"]) ∧
    (getArgsFromRequest reqStale [GoType.tPtr userStruct, GoType.tString]
        cfgBodyHeader).1[1]? = some (GoValue.vString "hv") :=
  ⟨(body_decode_ptr_struct reqStale [GoType.tPtr userStruct, GoType.tString] cfgBodyHeader
        ['U', 's', 'e', 'r'] (by decide) (by decide) rfl).1 _ _ "bad payload" rfl,
    (body_decode_ptr_struct reqStale [GoType.tPtr userStruct, GoType.tString] cfgBodyHeader
        ['U', 's', 'e', 'r'] (by decide) (by decide) rfl).2.2 [] [] 1 "x-h" rfl (by simp)
      (by decide) (by decide) (by decide)⟩

/-- C1 counterexample: a query-mapped and a path-mapped slot declared as
pointer-to-int32 are NOT unwrapped and parsed: even though the raw value
`"5"` parses as an int32, the slot keeps its zero value and the binder
logs the kind mismatch, because the branch inspects the kind computed
before the pointer unwrap. -/
theorem ptr_slot_not_coerced_counterexample :
    getArgsFromRequest reqFive [GoType.tPtr GoType.tInt32] cfgQuery0 =
      ([GoValue.vZero (GoType.tPtr GoType.tInt32)], [LogEvent.queryBadKind 0]) ∧
    getArgsFromRequest reqFive [GoType.tPtr GoType.tInt32] cfgPath0 =
      ([GoValue.vZero (GoType.tPtr GoType.tInt32)], [LogEvent.pathBadKind 0]) ∧
    goParseInt "5" 32 = some 5 := by
  exact ⟨rfl, rfl, rfl⟩

/-- C1 (amended): in the path and query passes the branch is taken on
the kind of the declared type BEFORE pointer unwrapping, so a
pointer-wrapped slot always falls into the rejection branch (non-fatal,
slot unchanged); the Int32/Int64/Int base-10 parses, the String
pass-through and the query Sequence pass-through apply exactly when the
declared type itself has that kind. -/
theorem path_query_kind_before_unwrap (req : RestRequest) (n : Nat) (types : List GoType)
    (st : List GoValue × List LogEvent × Option String) (k : Int) (v : String)
    (h0 : 0 ≤ k) (hn : k < (n : Int)) :
    (kindAt types k = GoKind.kPtr →
      queryParamStep req n types st (k, v) =
        (st.1, st.2.1 ++ [LogEvent.queryBadKind k], st.2.2) ∧
      pathParamStep req n types st (k, v) =
        (st.1, st.2.1 ++ [LogEvent.pathBadKind k], st.2.2)) ∧
    (∀ m : Int, kindAt types k = GoKind.kInt32 →
      goParseInt (req.queryParameter v) 32 = some m →
      queryParamStep req n types st (k, v) =
        (st.1.set k.toNat (GoValue.vInt32 m), st.2.1, none)) ∧
    (∀ m : Int, kindAt types k = GoKind.kInt →
      goAtoi (req.queryParameter v) = some m →
      queryParamStep req n types st (k, v) =
        (st.1.set k.toNat (GoValue.vInt m), st.2.1, none)) ∧
    (∀ m : Int, kindAt types k = GoKind.kInt64 →
      goParseInt (req.pathParameter v) 64 = some m →
      pathParamStep req n types st (k, v) =
        (st.1.set k.toNat (GoValue.vInt64 m), st.2.1, none)) ∧
    (kindAt types k = GoKind.kString → st.2.2 = none →
      queryParamStep req n types st (k, v) =
        (st.1.set k.toNat (GoValue.vString (req.queryParameter v)), st.2.1, none) ∧
      pathParamStep req n types st (k, v) =
        (st.1.set k.toNat (GoValue.vString (req.pathParameter v)), st.2.1, none)) ∧
    (kindAt types k = GoKind.kSlice → st.2.2 = none →
      queryParamStep req n types st (k, v) =
        (st.1.set k.toNat (GoValue.vStringSlice (req.queryParameters v)), st.2.1, none)) := by
  have hin : ¬(k < 0 ∨ (n : Int) ≤ k) := by omega
  refine ⟨?_, ?_, ?_, ?_, ?_, ?_⟩
  · intro hk
    have hk' : (types.getD k.toNat GoType.tInterface).kind = GoKind.kPtr := hk
    constructor
    · simp only [queryParamStep, hk']
      rw [if_neg hin]
      simp
    · simp only [pathParamStep, hk']
      rw [if_neg hin]
      simp
  · intro m hk hp
    have hk' : (types.getD k.toNat GoType.tInterface).kind = GoKind.kInt32 := hk
    simp only [queryParamStep, hk']
    rw [if_neg hin]
    simp [hp]
  · intro m hk hp
    have hk' : (types.getD k.toNat GoType.tInterface).kind = GoKind.kInt := hk
    simp only [queryParamStep, hk']
    rw [if_neg hin]
    simp [hp]
  · intro m hk hp
    have hk' : (types.getD k.toNat GoType.tInterface).kind = GoKind.kInt64 := hk
    simp only [pathParamStep, hk']
    rw [if_neg hin]
    simp [hp]
  · intro hk herr
    have hk' : (types.getD k.toNat GoType.tInterface).kind = GoKind.kString := hk
    constructor
    · simp only [queryParamStep, hk']
      rw [if_neg hin]
      simp [herr]
    · simp only [pathParamStep, hk']
      rw [if_neg hin]
      simp [herr]
  · intro hk herr
    have hk' : (types.getD k.toNat GoType.tInterface).kind = GoKind.kSlice := hk
    simp only [queryParamStep, hk']
    rw [if_neg hin]
    simp [herr]

/-- C1 witness: both steps reject a pointer-wrapped int32 slot outright,
and a bare int32 slot is parsed. -/
theorem path_query_kind_before_unwrap_witness :
    queryParamStep reqFive 1 [GoType.tPtr GoType.tInt32]
        ([GoValue.vZero (GoType.tPtr GoType.tInt32)], [], none) (0, "q") =
      ([GoValue.vZero (GoType.tPtr GoType.tInt32)], [LogEvent.queryBadKind 0], none) ∧
    queryParamStep reqFive 1 [GoType.tInt32] ([GoValue.vInt32 0], [], none) (0, "q") =
      ([GoValue.vInt32 0].set 0 (GoValue.vInt32 5), [], none) :=
  ⟨((path_query_kind_before_unwrap reqFive 1 [GoType.tPtr GoType.tInt32]
        ([GoValue.vZero (GoType.tPtr GoType.tInt32)], [], none) 0 "q" (by decide)
        (by decide)).1 (by decide)).1,
    (path_query_kind_before_unwrap reqFive 1 [GoType.tInt32]
        ([GoValue.vInt32 0], [], none) 0 "q" (by decide) (by decide)).2.1 5 (by decide)
      (by decide)⟩

/-- C2 counterexample: an out-of-range body index (5, with one declared
argument) is skipped silently: no diagnostic at all is emitted for it,
contrary to the claim that all four mappings report bad indices. -/
theorem body_out_of_range_silent_counterexample :
    getArgsFromRequest reqFive [GoType.tString] cfgBody5 = ([GoValue.vString ""], []) := by
  exact rfl

/-- C2 (amended): an out-of-range configured index never indexes the
argument list in any of the four passes and leaves every slot unchanged;
the path, query and header passes report it non-fatally and keep
binding (the fold continues from the same state plus one log entry),
while the body pass skips it silently without reporting. -/
theorem out_of_range_index_handling (req : RestRequest) (n : Nat) (types : List GoType)
    (st : List GoValue × List LogEvent × Option String)
    (stH : List GoValue × List LogEvent) (k : Int) (v : String)
    (hout : k < 0 ∨ (n : Int) ≤ k) :
    pathParamStep req n types st (k, v) =
      (st.1, st.2.1 ++ [LogEvent.pathIndexOutOfRange k], st.2.2) ∧
    queryParamStep req n types st (k, v) =
      (st.1, st.2.1 ++ [LogEvent.queryIndexOutOfRange k], st.2.2) ∧
    headerParamStep req n types stH (k, v) =
      (stH.1, stH.2 ++ [LogEvent.headerIndexOutOfRange k]) ∧
    (∀ (cfg : RestMethodConfig) (args : List GoValue) (logs : List LogEvent),
      cfg.body < 0 ∨ (types.length : Int) ≤ cfg.body →
      assembleArgsFromBody cfg types req args logs = (args, logs)) := by
  refine ⟨?_, ?_, ?_, ?_⟩
  · simp only [pathParamStep]
    rw [if_pos hout]
  · simp only [queryParamStep]
    rw [if_pos hout]
  · simp only [headerParamStep]
    rw [if_pos hout]
  · intro cfg args logs hb
    simp only [assembleArgsFromBody]
    rw [if_neg (by omega)]

/-- C2 witness: the query step logs the bad index 5 and keeps the state;
the body pass with body index 5 over one argument does nothing at all. -/
theorem out_of_range_index_handling_witness :
    queryParamStep reqFive 1 [GoType.tString] ([GoValue.vString ""], [], none) (5, "q") =
      ([GoValue.vString ""], [LogEvent.queryIndexOutOfRange 5], none) ∧
    assembleArgsFromBody cfgBody5 [GoType.tString] reqFive [GoValue.vString ""] [] =
      ([GoValue.vString ""], []) :=
  ⟨(out_of_range_index_handling reqFive 1 [GoType.tString] ([GoValue.vString ""], [], none)
      ([GoValue.vString ""], []) 5 "q" (by decide)).2.1,
    (out_of_range_index_handling reqFive 1 [GoType.tString] ([GoValue.vString ""], [], none)
      ([GoValue.vString ""], []) 5 "q" (by decide)).2.2.2 cfgBody5 [GoValue.vString ""] []
      (by decide)⟩

/-- C7: the positive half of the claim holds — `"2147483647"` lands as
`int32` max and `"abc"` leaves the slot zero with the parse error
logged — but the rest of the claim fails: the shared `err` variable is
still non-nil when the loop reaches the string slot 1, so that remaining
slot is NOT bound (it stays `""` although the query holds `"x"`), and
the stale parse error is logged a second time against it.  The evaluation
fixes the iteration order `(0,a)` then `(1,b)`, one of the orders Go's
randomised map iteration produces. -/
theorem stale_error_blocks_remaining_slot :
    getArgsFromRequest reqMax32 [GoType.tInt32, GoType.tString] cfgStaleA =
      ([GoValue.vInt32 2147483647, GoValue.vString "x"], []) ∧
    getArgsFromRequest reqStale [GoType.tInt32, GoType.tString] cfgStaleA =
      ([GoValue.vInt32 0, GoValue.vString ""],
        [LogEvent.queryParseError "abc", LogEvent.queryParseError "abc"]) := by
  exact ⟨rfl, rfl⟩

/-- A good query entry performs a pure write: no log, and the shared
error variable stays nil. -/
theorem goodQueryEntry_step (req : RestRequest) (n : Nat) (types : List GoType)
    (args : List GoValue) (logs : List LogEvent) (kv : Int × String)
    (hg : goodQueryEntry req n types kv) :
    queryParamStep req n types (args, logs, none) kv =
      (queryWrite req types args kv, logs, none) := by
  obtain ⟨h0, hn, hk⟩ := hg
  have hin : ¬(kv.1 < 0 ∨ (n : Int) ≤ kv.1) := by omega
  rcases hk with h | h | ⟨h, hp⟩ | ⟨h, hp⟩ | ⟨h, hp⟩
  · have h' : (types.getD kv.1.toNat GoType.tInterface).kind = GoKind.kSlice := h
    simp only [queryParamStep, queryWrite, queryVal, kindAt, h']
    rw [if_neg hin]
    simp
  · have h' : (types.getD kv.1.toNat GoType.tInterface).kind = GoKind.kString := h
    simp only [queryParamStep, queryWrite, queryVal, kindAt, h']
    rw [if_neg hin]
    simp
  · have h' : (types.getD kv.1.toNat GoType.tInterface).kind = GoKind.kInt := h
    obtain ⟨m, hm⟩ := Option.isSome_iff_exists.mp hp
    simp only [queryParamStep, queryWrite, queryVal, kindAt, h']
    rw [if_neg hin]
    simp [hm]
  · have h' : (types.getD kv.1.toNat GoType.tInterface).kind = GoKind.kInt32 := h
    obtain ⟨m, hm⟩ := Option.isSome_iff_exists.mp hp
    simp only [queryParamStep, queryWrite, queryVal, kindAt, h']
    rw [if_neg hin]
    simp [hm]
  · have h' : (types.getD kv.1.toNat GoType.tInterface).kind = GoKind.kInt64 := h
    obtain ⟨m, hm⟩ := Option.isSome_iff_exists.mp hp
    simp only [queryParamStep, queryWrite, queryVal, kindAt, h']
    rw [if_neg hin]
    simp [hm]

/-- When every entry is good, the query fold is the fold of the pure
writes: the log list is untouched and the error variable ends nil. -/
theorem goodQueryFold (req : RestRequest) (n : Nat) (types : List GoType)
    (l : List (Int × String)) (args : List GoValue) (logs : List LogEvent)
    (hg : ∀ kv ∈ l, goodQueryEntry req n types kv) :
    l.foldl (queryParamStep req n types) (args, logs, none) =
      (l.foldl (queryWrite req types) args, logs, none) := by
  induction l generalizing args with
  | nil => rfl
  | cons kv l ih =>
    rw [List.foldl_cons, goodQueryEntry_step req n types args logs kv
      (hg kv (List.mem_cons_self _ _)), List.foldl_cons]
    exact ih _ (fun x hx => hg x (List.mem_cons_of_mem _ hx))

/-- The pure query writes of a map with nonnegative, pairwise-distinct
keys are invariant under permutation of the iteration order. -/
theorem queryWrite_perm (req : RestRequest) (types : List GoType) :
    ∀ {l1 l2 : List (Int × String)}, l1.Perm l2 →
      (∀ kv ∈ l1, 0 ≤ kv.1) → (keysOf l1).Nodup →
      ∀ args, l1.foldl (queryWrite req types) args = l2.foldl (queryWrite req types) args := by
  intro l1 l2 p
  induction p with
  | nil =>
    intro _ _ args
    rfl
  | cons x p ih =>
    intro h0 hnd args
    rw [List.foldl_cons, List.foldl_cons]
    refine ih (fun kv hm => h0 kv (List.mem_cons_of_mem _ hm)) ?_ _
    exact (List.nodup_cons.mp hnd).2
  | swap x y l =>
    intro h0 hnd args
    have hxy : y.1 ≠ x.1 := by
      have hm := (List.nodup_cons.mp (show (y.1 :: x.1 :: keysOf l).Nodup from hnd)).1
      intro he
      exact hm (by rw [he]; exact List.mem_cons_self _ _)
    have h0x : 0 ≤ x.1 := h0 x (by simp)
    have h0y : 0 ≤ y.1 := h0 y (by simp)
    rw [List.foldl_cons, List.foldl_cons, List.foldl_cons, List.foldl_cons]
    have hcomm : queryWrite req types (queryWrite req types args y) x =
        queryWrite req types (queryWrite req types args x) y := by
      simp only [queryWrite]
      exact List.set_comm _ _ _ (by omega)
    rw [hcomm]
  | trans p1 p2 ih1 ih2 =>
    intro h0 hnd args
    rw [ih1 h0 hnd args]
    refine ih2 (fun kv hm => h0 kv (p1.mem_iff.mpr hm)) ?_ args
    have : (keysOf _).Perm (keysOf _) := p1.map Prod.fst
    exact this.nodup_iff.mp hnd

/-- The typed binder gives the same output on two iteration orders of
the same query map when every entry is good. -/
theorem getArgsFromRequest_query_perm (req : RestRequest) (types : List GoType)
    (cfg : RestMethodConfig) (q1 q2 : List (Int × String))
    (p : q1.Perm q2) (hnd : (keysOf q1).Nodup)
    (hg : ∀ kv ∈ q1, goodQueryEntry req types.length types kv) :
    getArgsFromRequest req types { cfg with queryParamsMap := q1 } =
      getArgsFromRequest req types { cfg with queryParamsMap := q2 } := by
  have hg2 : ∀ kv ∈ q2, goodQueryEntry req types.length types kv :=
    fun kv hm => hg kv (p.mem_iff.mpr hm)
  have h0 : ∀ kv ∈ q1, 0 ≤ kv.1 := fun kv hm => (hg kv hm).1
  dsimp only [getArgsFromRequest, assembleArgsFromQueryParams, assembleArgsFromPathParams]
  rw [goodQueryFold req types.length types q1 _ _ hg,
    goodQueryFold req types.length types q2 _ _ hg2,
    queryWrite_perm req types p h0 hnd]
  rfl

/-- C8 counterexample: the same two-entry query map, iterated in its two
possible orders against the same adapter snapshot, yields two different
argument lists (the stale shared error suppresses the string slot in one
order only), so re-running the binder is not guaranteed to reproduce the
argument list. -/
theorem binding_order_sensitive_counterexample :
    cfgStaleA.queryParamsMap.Perm cfgStaleB.queryParamsMap ∧
    getArgsFromRequest reqStale [GoType.tInt32, GoType.tString] cfgStaleA ≠
      getArgsFromRequest reqStale [GoType.tInt32, GoType.tString] cfgStaleB := by
  constructor
  · decide
  · decide

/-- C8 (amended): the binder is a pure function of the adapter snapshot,
the signature and the configuration together with its map iteration
order — two runs that iterate the maps in the same order agree in both
conventions — and the result is moreover independent of the query-map
iteration order whenever every configured query entry binds without
error; only an erroring entry makes different iteration orders
observable. -/
theorem binding_deterministic (req : RestRequest) (types : List GoType)
    (cfg : RestMethodConfig) :
    (getArgsFromRequest req types cfg = getArgsFromRequest req types cfg ∧
      getArgsInterfaceFromRequest req cfg = getArgsInterfaceFromRequest req cfg) ∧
    (∀ q1 q2 : List (Int × String), q1.Perm q2 → (keysOf q1).Nodup →
      (∀ kv ∈ q1, goodQueryEntry req types.length types kv) →
      getArgsFromRequest req types { cfg with queryParamsMap := q1 } =
        getArgsFromRequest req types { cfg with queryParamsMap := q2 }) := by
  refine ⟨⟨rfl, rfl⟩, ?_⟩
  intro q1 q2 p hnd hg
  exact getArgsFromRequest_query_perm req types cfg q1 q2 p hnd hg

/-- C8 witness: with two string-kind query slots (no parse errors) the
two iteration orders of the same map give identical lists. -/
theorem binding_deterministic_witness :
    getArgsFromRequest reqStale [GoType.tString, GoType.tString]
        { cfgEmpty with queryParamsMap := [(0, "a"), (1, "b")] } =
      getArgsFromRequest reqStale [GoType.tString, GoType.tString]
        { cfgEmpty with queryParamsMap := [(1, "b"), (0, "a")] } :=
  (binding_deterministic reqStale [GoType.tString, GoType.tString] cfgEmpty).2
    [(0, "a"), (1, "b")] [(1, "b"), (0, "a")] (by decide) (by decide) (by decide)

/-- C9: when the configuration references no index at all (three empty
maps and a negative body index), the generic convention still returns a
singleton list holding the untyped absent value — not an empty list —
because the maximum-index accumulator starts at 0 and the result length
is maxKey+1. -/
theorem generic_empty_config_singleton (req : RestRequest) (cfg : RestMethodConfig)
    (hp : cfg.pathParamsMap = []) (hq : cfg.queryParamsMap = [])
    (hh : cfg.headersMap = []) (hb : cfg.body < 0) :
    getArgsInterfaceFromRequest req cfg = ([none], []) := by
  simp only [getArgsInterfaceFromRequest, buildGenericState, hp, hq, hh, List.foldl_nil]
  rw [if_neg (by omega)]
  rfl

/-- C9 witness: the empty configuration yields the one-slot absent
list. -/
theorem generic_empty_config_singleton_witness :
    getArgsInterfaceFromRequest reqFive cfgEmpty = ([none], []) :=
  generic_empty_config_singleton reqFive cfgEmpty rfl rfl rfl (by decide)

/-- Key-presence in the generic `argsMap` is unchanged by dropping the
negative-key entries, for a nonnegative key. -/
theorem any_keepNonnegVals (m : List (Int × GoValue)) (k : Int) (h : 0 ≤ k) :
    (keepNonnegVals m).any (fun p => p.1 = k) = m.any (fun p => p.1 = k) := by
  induction m with
  | nil => rfl
  | cons p m ih =>
    by_cases hp : 0 ≤ p.1
    · simp [keepNonnegVals, List.filter_cons, hp, List.any_cons] at ih ⊢
      rw [ih]
    · have hpk : ¬(p.1 = k) := by omega
      simp [keepNonnegVals, List.filter_cons, hp, List.any_cons, hpk] at ih ⊢
      rw [ih]

/-- Replacing the binding of a nonnegative key commutes with dropping the
negative-key entries. -/
theorem keepNonnegVals_map_replace (m : List (Int × GoValue)) (k : Int) (v : GoValue)
    (h : 0 ≤ k) :
    keepNonnegVals (m.map (fun p => if p.1 = k then (k, v) else p)) =
      (keepNonnegVals m).map (fun p => if p.1 = k then (k, v) else p) := by
  induction m with
  | nil => rfl
  | cons p m ih =>
    by_cases hpk : p.1 = k
    · simp only [List.map_cons, if_pos hpk, keepNonnegVals, List.filter_cons]
      rw [show (decide (0 ≤ (k, v).1) = true) from by simpa using h,
        show (decide (0 ≤ p.1) = true) from by simp [hpk, h]]
      simp only [keepNonnegVals] at ih
      simp [ih, if_pos hpk]
    · simp only [List.map_cons, if_neg hpk, keepNonnegVals, List.filter_cons]
      simp only [keepNonnegVals] at ih
      by_cases hp : 0 ≤ p.1
      · simp [hp, ih, if_neg hpk]
      · simp [hp, ih]

/-- Inserting a nonnegative key commutes with dropping the negative-key
entries. -/
theorem keepNonnegVals_mapInsert_nonneg (m : List (Int × GoValue)) (k : Int) (v : GoValue)
    (h : 0 ≤ k) :
    keepNonnegVals (mapInsert m k v) = mapInsert (keepNonnegVals m) k v := by
  simp only [mapInsert, any_keepNonnegVals m k h]
  by_cases hany : m.any (fun p => p.1 = k) = true
  · rw [if_pos hany, if_pos hany]
    exact keepNonnegVals_map_replace m k v h
  · rw [if_neg hany, if_neg hany]
    simp [keepNonnegVals, List.filter_append, h]

/-- Replacing the binding of a negative key changes nothing among the
nonnegative entries. -/
theorem keepNonnegVals_map_replace_neg (m : List (Int × GoValue)) (k : Int) (v : GoValue)
    (h : k < 0) :
    keepNonnegVals (m.map (fun p => if p.1 = k then (k, v) else p)) = keepNonnegVals m := by
  induction m with
  | nil => rfl
  | cons p m ih =>
    by_cases hpk : p.1 = k
    · simp only [List.map_cons, if_pos hpk, keepNonnegVals, List.filter_cons]
      rw [show (decide (0 ≤ (k, v).1) = false) from by simpa using h,
        show (decide (0 ≤ p.1) = false) from by simp [hpk]; omega]
      simpa [keepNonnegVals] using ih
    · simp only [List.map_cons, if_neg hpk, keepNonnegVals, List.filter_cons]
      have ih' : List.filter (fun kv => decide (0 ≤ kv.1))
            (List.map (fun p => if p.1 = k then (k, v) else p) m) =
          List.filter (fun kv => decide (0 ≤ kv.1)) m := by
        simpa [keepNonnegVals] using ih
      by_cases hp : 0 ≤ p.1 <;> simp [hp, ih']

/-- Inserting a negative key changes nothing among the nonnegative
entries. -/
theorem keepNonnegVals_mapInsert_neg (m : List (Int × GoValue)) (k : Int) (v : GoValue)
    (h : k < 0) :
    keepNonnegVals (mapInsert m k v) = keepNonnegVals m := by
  simp only [mapInsert]
  split
  · exact keepNonnegVals_map_replace_neg m k v h
  · simp [keepNonnegVals, List.filter_append, show ¬(0 ≤ k) from by omega]

/-- The drop-negatives simulation for one accumulation loop of the
generic convention: same maximum key, same nonnegative entries, and the
maximum key stays nonnegative. -/
theorem genericFold_drop (f : Int × String → GoValue) (l : List (Int × String)) :
    ∀ st st' : Int × List (Int × GoValue), st'.1 = st.1 →
      keepNonnegVals st'.2 = keepNonnegVals st.2 → 0 ≤ st.1 →
      ((dropNegativeKeys l).foldl (genericFoldStep f) st').1 =
        (l.foldl (genericFoldStep f) st).1 ∧
      keepNonnegVals ((dropNegativeKeys l).foldl (genericFoldStep f) st').2 =
        keepNonnegVals ((l.foldl (genericFoldStep f) st).2) ∧
      0 ≤ (l.foldl (genericFoldStep f) st).1 := by
  induction l with
  | nil =>
    intro st st' h1 h2 h3
    exact ⟨h1, h2, h3⟩
  | cons kv l ih =>
    intro st st' h1 h2 h3
    by_cases hk : 0 ≤ kv.1
    · have hdrop : dropNegativeKeys (kv :: l) = kv :: dropNegativeKeys l := by
        simp [dropNegativeKeys, List.filter_cons, hk]
      rw [hdrop, List.foldl_cons, List.foldl_cons]
      refine ih _ _ ?_ ?_ ?_
      · simp [genericFoldStep, h1]
      · simp only [genericFoldStep]
        rw [keepNonnegVals_mapInsert_nonneg _ _ _ hk,
          keepNonnegVals_mapInsert_nonneg _ _ _ hk, h2]
      · simp only [genericFoldStep]
        split <;> omega
    · have hdrop : dropNegativeKeys (kv :: l) = dropNegativeKeys l := by
        simp [dropNegativeKeys, List.filter_cons, hk]
      rw [hdrop, List.foldl_cons]
      refine ih _ _ ?_ ?_ ?_
      · simp only [genericFoldStep]
        rw [if_neg (by omega)]
        exact h1
      · simp only [genericFoldStep]
        rw [keepNonnegVals_mapInsert_neg _ _ _ (by omega), h2]
      · simp only [genericFoldStep]
        rw [if_neg (by omega)]
        exact h3

/-- The final fill loop ignores entries with negative keys. -/
theorem fillArgs_keepNonnegVals (m : List (Int × GoValue)) :
    ∀ init : List (Option GoValue),
      m.foldl fillArgsStep init = (keepNonnegVals m).foldl fillArgsStep init := by
  induction m with
  | nil => intro init; rfl
  | cons p m ih =>
    intro init
    by_cases hp : 0 ≤ p.1
    · simp only [keepNonnegVals, List.filter_cons]
      rw [show (decide (0 ≤ p.1) = true) from by simpa using hp]
      simp only [List.foldl_cons]
      simpa [keepNonnegVals] using ih (fillArgsStep init p)
    · simp only [keepNonnegVals, List.filter_cons]
      rw [show (decide (0 ≤ p.1) = false) from by simpa using hp]
      simp only [List.foldl_cons]
      rw [show fillArgsStep init p = init from by simp [fillArgsStep, hp]]
      simpa [keepNonnegVals] using ih init

/-- An entry of `mapInsert m k v` is an old entry or carries key `k`. -/
theorem mapInsert_mem (m : List (Int × GoValue)) (k : Int) (v : GoValue) (kv : Int × GoValue)
    (h : kv ∈ mapInsert m k v) : kv ∈ m ∨ kv.1 = k := by
  simp only [mapInsert] at h
  split at h
  · obtain ⟨p, hp, he⟩ := List.mem_map.mp h
    by_cases hpk : p.1 = k
    · right
      rw [← he, if_pos hpk]
    · left
      rw [← he, if_neg hpk]
      exact hp
  · rcases List.mem_append.mp h with h1 | h1
    · left
      exact h1
    · right
      simp only [List.mem_singleton] at h1
      rw [h1]

/-- Every nonnegative key the accumulation loops record stays bounded by
the running maximum key. -/
theorem genericFold_bound (f : Int × String → GoValue) (l : List (Int × String)) :
    ∀ st : Int × List (Int × GoValue),
      (∀ kv ∈ st.2, 0 ≤ kv.1 → kv.1 ≤ st.1) →
      ∀ kv ∈ (l.foldl (genericFoldStep f) st).2, 0 ≤ kv.1 →
        kv.1 ≤ (l.foldl (genericFoldStep f) st).1 := by
  induction l with
  | nil =>
    intro st h
    exact h
  | cons x l ih =>
    intro st h
    rw [List.foldl_cons]
    refine ih _ ?_
    intro kv hm h0
    rcases mapInsert_mem st.2 x.1 (f x) kv hm with hin | hkey
    · have hb := h kv hin h0
      simp only [genericFoldStep]
      split <;> omega
    · simp only [genericFoldStep]
      rw [hkey]
      split <;> omega

/-- Every nonnegative key of the final generic `argsMap` is bounded by
the final maximum key. -/
theorem buildGenericState_bound (req : RestRequest) (cfg : RestMethodConfig) :
    ∀ kv ∈ (buildGenericState req cfg).2.1, 0 ≤ kv.1 →
      kv.1 ≤ (buildGenericState req cfg).1 := by
  simp only [buildGenericState]
  have hb1 := genericFold_bound (pathRawValue req) cfg.pathParamsMap (0, []) (by simp)
  have hb2 := genericFold_bound (queryRawValue req) cfg.queryParamsMap _ hb1
  have hb3 := genericFold_bound (headerRawValue req) cfg.headersMap _ hb2
  by_cases hb : 0 ≤ cfg.body
  · rw [if_pos hb]
    cases hre : req.readEntity BodyTarget.genericMap with
    | error e =>
      simp only [hre]
      intro kv hm h0
      have := hb3 kv hm h0
      split <;> omega
    | ok mv =>
      simp only [hre]
      intro kv hm h0
      rcases mapInsert_mem _ _ _ kv hm with hin | hkey
      · have := hb3 kv hin h0
        split <;> omega
      · rw [hkey]
        split <;> omega
  · rw [if_neg hb]
    exact hb3

/-- The fill loop preserves the length of the argument list. -/
theorem fillArgs_length (m : List (Int × GoValue)) :
    ∀ init : List (Option GoValue), (m.foldl fillArgsStep init).length = init.length := by
  induction m with
  | nil =>
    intro init
    rfl
  | cons p m ih =>
    intro init
    rw [List.foldl_cons, ih]
    simp only [fillArgsStep]
    split <;> simp [List.length_set]

/-- Dropping the negative-key entries of the configuration changes
neither the final maximum key, nor the nonnegative entries of the
`argsMap`, nor the logs. -/
theorem buildGenericState_drop (req : RestRequest) (cfg : RestMethodConfig) :
    (buildGenericState req (dropNegativeCfg cfg)).1 = (buildGenericState req cfg).1 ∧
    keepNonnegVals (buildGenericState req (dropNegativeCfg cfg)).2.1 =
      keepNonnegVals (buildGenericState req cfg).2.1 ∧
    (buildGenericState req (dropNegativeCfg cfg)).2.2 = (buildGenericState req cfg).2.2 := by
  obtain ⟨h1, h2, h3⟩ := genericFold_drop (pathRawValue req) cfg.pathParamsMap (0, [])
    (0, []) rfl rfl (le_refl 0)
  obtain ⟨h1', h2', h3'⟩ := genericFold_drop (queryRawValue req) cfg.queryParamsMap _ _ h1 h2 h3
  obtain ⟨h1'', h2'', h3''⟩ := genericFold_drop (headerRawValue req) cfg.headersMap _ _ h1' h2' h3'
  simp only [buildGenericState, dropNegativeCfg]
  by_cases hb : 0 ≤ cfg.body
  · rw [if_pos hb, if_pos hb]
    cases hre : req.readEntity BodyTarget.genericMap with
    | error e =>
      simp only [hre]
      exact ⟨by rw [h1''], h2'', trivial⟩
    | ok mv =>
      simp only [hre]
      refine ⟨by rw [h1''], ?_, trivial⟩
      rw [keepNonnegVals_mapInsert_nonneg _ _ _ hb,
        keepNonnegVals_mapInsert_nonneg _ _ _ hb, h2'']
  · rw [if_neg hb, if_neg hb]
    exact ⟨h1'', h2'', rfl⟩

/-- C10: in the generic convention a negative configured index — in any
of the three mappings or as the body index — contributes nothing: the
output (argument list and diagnostics alike) equals the output for the
configuration with all negative entries removed, so it never lengthens
the list and emits no diagnostic; moreover every nonnegative key of the
accumulated map is within the final list bounds (so the fill never
writes out of bounds), the list having exactly `maxKey+1` slots. -/
theorem generic_negative_index_inert (req : RestRequest) (cfg : RestMethodConfig) :
    getArgsInterfaceFromRequest req cfg =
      getArgsInterfaceFromRequest req (dropNegativeCfg cfg) ∧
    (∀ kv ∈ (buildGenericState req cfg).2.1, 0 ≤ kv.1 →
      kv.1 < (buildGenericState req cfg).1 + 1) ∧
    (getArgsInterfaceFromRequest req cfg).1.length =
      ((buildGenericState req cfg).1 + 1).toNat := by
  obtain ⟨h1, h2, h3⟩ := buildGenericState_drop req cfg
  refine ⟨?_, ?_, ?_⟩
  · simp only [getArgsInterfaceFromRequest]
    rw [h1, h3, fillArgs_keepNonnegVals (buildGenericState req cfg).2.1,
      fillArgs_keepNonnegVals (buildGenericState req (dropNegativeCfg cfg)).2.1, h2]
  · intro kv hm h0
    have := buildGenericState_bound req cfg kv hm h0
    omega
  · simp only [getArgsInterfaceFromRequest]
    rw [fillArgs_length, List.length_replicate]

/-- C10 witness: a configuration with negative indices everywhere binds
exactly like its cleaned-up counterpart (here: one query entry at slot
2), with no diagnostics. -/
theorem generic_negative_index_inert_witness :
    getArgsInterfaceFromRequest reqFive cfgNegative =
      getArgsInterfaceFromRequest reqFive (dropNegativeCfg cfgNegative) :=
  (generic_negative_index_inert reqFive cfgNegative).1

end DubboRest
